import Mathlib

set_option maxHeartbeats 1000000

/-!
Shallow embedding of the transaction codec of cpp-ethereum
(libethereum/Transaction.cpp) and of the whisper topic scenario
(test/libwhisper/whisperTopic.cpp), developed to check the repository
specification.  Machine integers (u256, byte, h160, h256) are modelled
as Nat with explicit truncation where the C++ arithmetic wraps; fallible
decoding is modelled with Except; the external elliptic-curve and RLP
byte-grammar collaborators are modelled as parameters.
-/

/-- Little-endian base-256 digits of a natural number, least significant
first; zero encodes to the empty digit list. -/
def natToLE (n : Nat) : List Nat :=
  if h : n = 0 then [] else (n % 256) :: natToLE (n / 256)
decreasing_by exact Nat.div_lt_self (Nat.pos_of_ne_zero h) (by decide)

/-- Minimal big-endian byte encoding of a natural number, as produced by
the RLP library for integer scalars. -/
def natToBE (n : Nat) : List Nat := (natToLE n).reverse

/-- Value of a little-endian digit list. -/
def leVal (bs : List Nat) : Nat := bs.foldr (fun b acc => 256 * acc + b) 0

/-- Value of a big-endian byte list. -/
def beVal (bs : List Nat) : Nat := bs.foldl (fun acc b => 256 * acc + b) 0

/-- Fixed-width big-endian encoding: the encoding of an h160 address on
the stream is always exactly 20 bytes, leading zeros included. -/
def fixedBE (w : Nat) (n : Nat) : List Nat :=
  List.replicate (w - (natToBE n).length) 0 ++ natToBE n

/-- Parsed RLP item: a raw byte string or a list of items.  The byte-level
RLP grammar lives in the external libdevcore collaborator; the transaction
code only inspects the parsed structure, which this tree captures. -/
inductive RLPItem where
  | bytes (bs : List Nat)
  | list (items : List RLPItem)

/-- Decidable equality on RLP item trees. -/
def RLPItem.decEqv : (a b : RLPItem) → Decidable (a = b)
  | .bytes a, .bytes b =>
      if h : a = b then .isTrue (by rw [h]) else
        .isFalse (by intro hc; injection hc; contradiction)
  | .bytes _, .list _ => .isFalse (by intro h; exact RLPItem.noConfusion h)
  | .list _, .bytes _ => .isFalse (by intro h; exact RLPItem.noConfusion h)
  | .list [], .list [] => .isTrue rfl
  | .list [], .list (_ :: _) =>
      .isFalse (by intro h; injection h with h; exact List.noConfusion h)
  | .list (_ :: _), .list [] =>
      .isFalse (by intro h; injection h with h; exact List.noConfusion h)
  | .list (x :: xs), .list (y :: ys) =>
      match RLPItem.decEqv x y, RLPItem.decEqv (.list xs) (.list ys) with
      | .isTrue h1, .isTrue h2 => .isTrue (by injection h2 with h2; rw [h1, h2])
      | .isFalse h1, _ =>
          .isFalse (by intro h; injection h with h; injection h with ha hb; exact h1 ha)
      | _, .isFalse h2 =>
          .isFalse (by intro h; injection h with h; injection h with ha hb; exact h2 (by rw [hb]))

instance : DecidableEq RLPItem := RLPItem.decEqv

/-- Transaction type, as in the Transaction class: NullTransaction is the
default-constructed state, the decoder produces the other two. -/
inductive TransactionType where
  | NullTransaction
  | ContractCreation
  | MessageCall
deriving DecidableEq

/-- Signature triple (r, s, v); r and s model h256 words, v a byte. -/
structure SignatureStruct where
  r : Nat
  s : Nat
  v : Nat
deriving DecidableEq

/-- Construction-time checking mode, ordered None < Cheap < Everything. -/
inductive CheckTransaction where
  | None
  | Cheap
  | Everything
deriving DecidableEq

/-- Numeric rank of a checking mode, modelling the C++ enum comparison. -/
def CheckTransaction.rank : CheckTransaction → Nat
  | .None => 0
  | .Cheap => 1
  | .Everything => 2

/-- Exception taxonomy raised by transaction construction and sender
recovery.  BadCast is the RLP library's conversion failure (thrown by
toInt and toHash on ill-fitting items); the others are the explicitly
thrown transaction exceptions. -/
inductive TxErr where
  | BadRLP
  | InvalidSignature
  | OutOfGasIntrinsic (required : Nat) (got : Nat)
  | BadCast
deriving DecidableEq

/-- The Transaction record.  u256 fields are Nats (the decoder enforces
they fit), the address is an h160 value, m_sender is the mutable sender
cache whose default h160 value 0 doubles as the unset sentinel. -/
structure Transaction where
  m_type : TransactionType
  m_nonce : Nat
  m_gasPrice : Nat
  m_gas : Nat
  m_receiveAddress : Nat
  m_value : Nat
  m_data : List Nat
  m_vrs : SignatureStruct
  m_sender : Nat
deriving DecidableEq

/-- Order of the secp256k1 group, bounding valid r and s. -/
def c_secp256k1n : Nat :=
  115792089237316195423570985008687907852837564279074904382605163141518161494337

/-- Modelled from the spec: SignatureStruct.isValid of the libdevcrypto
collaborator (not under src), which requires r and s in range and
v in 0..1 after normalization. -/
def sigValid (sg : SignatureStruct) : Prop :=
  sg.v ≤ 1 ∧ 0 < sg.r ∧ sg.r < c_secp256k1n ∧ 0 < sg.s ∧ sg.s < c_secp256k1n

instance (sg : SignatureStruct) : Decidable (sigValid sg) := by
  unfold sigValid; infer_instance

/-- Parameters standing for the external black-box collaborators:
sha3s hashes the byte output of an RLP stream, recover/sign/toPublic are
the elliptic-curve primitives, sha3pub hashes a public key (the sender
address is the right 160 bits of that hash), and gasReq is the intrinsic
gas requirement of a payload (Transaction::gasRequired(bytes), not under
src, modelled from the spec as a pure function of the payload). -/
structure Crypto where
  sha3s : List RLPItem → Nat
  recover : SignatureStruct → Nat → Option Nat
  sign : Nat → Nat → SignatureStruct
  toPublic : Nat → Nat
  sha3pub : Nat → Nat
  gasReq : List Nat → Nat

/-- The field items written by Transaction::streamRLP for a non-null
transaction: nonce, gasPrice, gas, recipient (empty string for contract
creation), value, data, then v + 27, r, s when the signature is included. -/
def rlpFields (t : Transaction) (withSig : Bool) : List RLPItem :=
  [RLPItem.bytes (natToBE t.m_nonce),
   RLPItem.bytes (natToBE t.m_gasPrice),
   RLPItem.bytes (natToBE t.m_gas),
   (if t.m_type = TransactionType.MessageCall then
      RLPItem.bytes (fixedBE 20 t.m_receiveAddress)
    else RLPItem.bytes []),
   RLPItem.bytes (natToBE t.m_value),
   RLPItem.bytes t.m_data] ++
  (if withSig then
     [RLPItem.bytes (natToBE (t.m_vrs.v + 27)),
      RLPItem.bytes (natToBE t.m_vrs.r),
      RLPItem.bytes (natToBE t.m_vrs.s)]
   else [])

/-- Transaction::streamRLP: appends nothing for a null transaction,
otherwise appends one list of 6 or 9 field items to the stream. -/
def streamRLP (t : Transaction) (withSig : Bool) (s : List RLPItem) : List RLPItem :=
  if t.m_type = TransactionType.NullTransaction then s
  else s ++ [RLPItem.list (rlpFields t withSig)]

/-- sha3(WithoutSignature): hash of the canonical unsigned encoding. -/
def hashUnsigned (C : Crypto) (t : Transaction) : Nat :=
  C.sha3s (streamRLP t false [])

deriving instance DecidableEq for Except

/-- Outcome of one call to Transaction::sender(): the returned address or
exception, the transaction state afterwards (the mutable m_sender cache
may have been filled), and whether signature recovery was executed. -/
structure SenderRun where
  result : Except TxErr Nat
  post : Transaction
  ranRecovery : Bool
deriving DecidableEq

/-- Transaction::sender(): when the cache is unset (the zero address),
run recovery over the hash of the unsigned encoding, raise
InvalidSignature when it yields no public key, otherwise cache and
return right160(sha3(publicKey)). -/
def senderI (C : Crypto) (t : Transaction) : SenderRun :=
  if t.m_sender = 0 then
    match C.recover t.m_vrs (hashUnsigned C t) with
    | none => ⟨Except.error TxErr.InvalidSignature, t, true⟩
    | some p =>
        ⟨Except.ok (C.sha3pub p % 2 ^ 160),
         { t with m_sender := C.sha3pub p % 2 ^ 160 }, true⟩
  else ⟨Except.ok t.m_sender, t, false⟩

/-- Transaction::safeSender(): sender(), with any exception swallowed and
replaced by the zero address. -/
def safeSender (C : Crypto) (t : Transaction) : Nat × Transaction :=
  match senderI C t with
  | ⟨Except.ok a, post, _⟩ => (a, post)
  | ⟨Except.error _, post, _⟩ => (0, post)

/-- Transaction::sign: compute a signature over the unsigned-encoding
hash and install it only when it passes the validity check. -/
def signTx (C : Crypto) (k : Nat) (t : Transaction) : Transaction :=
  let sg := C.sign k (hashUnsigned C t)
  if sigValid sg then { t with m_vrs := sg } else t

/-- Transaction::gasRequired(), the intrinsic gas of the payload. -/
def gasRequired (C : Crypto) (t : Transaction) : Nat := C.gasReq t.m_data

/-- Modelled from the spec: Transaction::checkPayment() (declared in the
header, not under src) — the payment sufficiency precheck, true when the
supplied gas covers the intrinsic requirement. -/
def checkPayment (C : Crypto) (t : Transaction) : Prop :=
  gasRequired C t ≤ t.m_gas

instance (C : Crypto) (t : Transaction) : Decidable (checkPayment C t) := by
  unfold checkPayment; infer_instance

/-- RLP toInt into u256: requires a data item of at most 32 bytes. -/
def toInt256 : Option RLPItem → Except TxErr Nat
  | some (RLPItem.bytes bs) =>
      if bs.length > 32 then Except.error TxErr.BadCast else Except.ok (beVal bs)
  | _ => Except.error TxErr.BadCast

/-- RLP toInt into byte: requires a data item of at most 1 byte. -/
def toIntByte : Option RLPItem → Except TxErr Nat
  | some (RLPItem.bytes bs) =>
      if bs.length > 1 then Except.error TxErr.BadCast else Except.ok (beVal bs)
  | _ => Except.error TxErr.BadCast

/-- RLP isEmpty: a present item of zero length (data or list). -/
def isEmptyItem : Option RLPItem → Bool
  | some (RLPItem.bytes []) => true
  | some (RLPItem.list []) => true
  | _ => false

/-- RLP isData: a present raw byte string. -/
def isDataItem : Option RLPItem → Bool
  | some (RLPItem.bytes _) => true
  | _ => false

/-- RLP toBytes on a data item. -/
def toBytesItem : Option RLPItem → Except TxErr (List Nat)
  | some (RLPItem.bytes bs) => Except.ok bs
  | _ => Except.error TxErr.BadCast

/-- RLP toHash into an h160 under VeryStrict: exactly 20 bytes. -/
def toHashAddr : Option RLPItem → Except TxErr Nat
  | some (RLPItem.bytes bs) =>
      if bs.length = 20 then Except.ok (beVal bs) else Except.error TxErr.BadCast
  | _ => Except.error TxErr.BadCast

/-- Field 3 as the recipient: the null address when the item is empty,
otherwise the strictly decoded h160. -/
def field3Addr (xs : List RLPItem) : Except TxErr Nat :=
  if isEmptyItem (xs.get? 3) then Except.ok 0 else toHashAddr (xs.get? 3)

/-- The try-block of the decoding constructor: field-by-field reads in
source order, with the explicit BadRLP throws for a non-list outer item,
a non-data data field, and more than 9 items (checked after the reads,
as in the source).  The stored v is the wire byte minus 27 in byte
arithmetic, that is (w + 229) mod 256. -/
def decodeCore : RLPItem → Except TxErr Transaction
  | RLPItem.bytes _ => Except.error TxErr.BadRLP
  | RLPItem.list xs => do
    let nonce ← toInt256 (xs.get? 0)
    let gasPrice ← toInt256 (xs.get? 1)
    let gas ← toInt256 (xs.get? 2)
    let ra ← field3Addr xs
    let value ← toInt256 (xs.get? 4)
    if isDataItem (xs.get? 5) = false then Except.error TxErr.BadRLP else do
      let d ← toBytesItem (xs.get? 5)
      let w ← toIntByte (xs.get? 6)
      let r ← toInt256 (xs.get? 7)
      let s ← toInt256 (xs.get? 8)
      if xs.length > 9 then Except.error TxErr.BadRLP
      else
        Except.ok
          { m_type :=
              if isEmptyItem (xs.get? 3) then TransactionType.ContractCreation
              else TransactionType.MessageCall,
            m_nonce := nonce, m_gasPrice := gasPrice, m_gas := gas,
            m_receiveAddress := ra, m_value := value, m_data := d,
            m_vrs := { r := r, s := s, v := (w + 229) % 256 },
            m_sender := 0 }

/-- The decoding constructor Transaction::Transaction(bytesConstRef,
CheckTransaction): field decoding, then under Cheap or stricter the
signature validity check, under Everything eager sender recovery, and
finally under Cheap or stricter the payment check raising
OutOfGasIntrinsic with the required and supplied gas. -/
def decodeTx (C : Crypto) (it : RLPItem) (mode : CheckTransaction) :
    Except TxErr Transaction := do
  let t0 ← decodeCore it
  if mode.rank ≥ 1 ∧ ¬ sigValid t0.m_vrs then Except.error TxErr.InvalidSignature
  else do
    let t1 ←
      if mode = CheckTransaction.Everything then
        match senderI C t0 with
        | ⟨Except.ok _, post, _⟩ => Except.ok post
        | ⟨Except.error e, _, _⟩ => Except.error e
      else Except.ok t0
    if mode.rank ≥ 1 ∧ ¬ checkPayment C t1 then
      Except.error (TxErr.OutOfGasIntrinsic (gasRequired C t1) t1.m_gas)
    else Except.ok t1

/-- Modelled from the spec: the topic commitment (BuildTopic) of the
whisper engine, whose implementation is not under src (only its test
is).  Only determinism and collision-freedom of the commitment are used
by the scenario, so it is modelled as the identity injection on
strings. -/
def wCommit (s : String) : String := s

/-- Modelled from the spec: a topic mask entry is a commitment or a
wildcard, and a mask matches a candidate topic list of equal arity when
every non-wildcard position agrees. -/
def wMatches (mask : List (Option String)) (ts : List String) : Bool :=
  mask.length == ts.length &&
  (mask.zip ts).all fun p =>
    match p.1 with
    | none => true
    | some t => t == p.2

/-- An envelope as the scenario observes it: topic list and numeric
payload. -/
structure WEnvelope where
  topics : List String
  payload : Nat
deriving DecidableEq

/-- Modelled from the spec: the ten envelopes node B posts — payload
i * i, first topic the commitment of "odd" or "even" by the parity of i,
second the per-message topic, matching the arity of the watched mask
(commitment of "odd", then wildcard). -/
def wScenarioEnvs : List WEnvelope :=
  (List.range 10).map fun i =>
    ⟨[wCommit (if i % 2 == 1 then "odd" else "even"), wCommit (toString i)], i * i⟩

/-- The watch mask node A installs: the commitment of "odd", then a
wildcard. -/
def wOddMask : List (Option String) := [some (wCommit "odd"), none]

/-- Modelled from the spec: the payload sequence a watch with the given
mask eventually observes from a posted envelope sequence — per the watch
registry and propagation contracts, exactly the envelopes whose topic
lists match the filter, each delivered exactly once, in posting order. -/
def wObserved (mask : List (Option String)) (envs : List WEnvelope) : List Nat :=
  (envs.filter fun e => wMatches mask e.topics).map WEnvelope.payload

/-- A concrete instantiation of the black-box crypto parameters, used to
evaluate the development on closed inputs: signatures pack the key,
recovery unpacks it. -/
def demoCrypto : Crypto where
  sha3s := fun l => l.length + 1
  recover := fun sg _h => if sg.v = 0 ∧ sg.s = 1 then some (sg.r - 1) else none
  sign := fun k _h => ⟨k % (c_secp256k1n - 1) + 1, 1, 0⟩
  toPublic := fun k => k % (c_secp256k1n - 1)
  sha3pub := fun p => p + 1
  gasReq := fun d => d.length

/-- A concrete instantiation in which recovery succeeds but the
recovered key hashes to a multiple of 2 ^ 160, so the derived sender
address is the zero address — the value the cache uses as its unset
sentinel. -/
def zeroCrypto : Crypto where
  sha3s := fun _ => 0
  recover := fun _ _ => some 0
  sign := fun _ _ => ⟨1, 1, 0⟩
  toPublic := fun k => k
  sha3pub := fun _ => 2 ^ 160
  gasReq := fun _ => 0

/-- Sample transaction whose signature recovers under zeroCrypto to the
zero address. -/
def txZeroAddr : Transaction :=
  ⟨TransactionType.MessageCall, 0, 0, 0, 0, 0, [], ⟨1, 1, 0⟩, 0⟩

/-- Sample transaction with a recoverable signature under demoCrypto. -/
def txW : Transaction :=
  ⟨TransactionType.MessageCall, 0, 0, 0, 0, 0, [], ⟨5, 1, 0⟩, 0⟩

/-- Sample transaction whose tampered signature fails recovery under
demoCrypto (s is out of the shape recovery accepts). -/
def txBad : Transaction :=
  ⟨TransactionType.MessageCall, 0, 0, 0, 0, 0, [], ⟨5, 2, 0⟩, 0⟩

/-- Sample message-call transaction used for the signing round trip. -/
def txC3 : Transaction :=
  ⟨TransactionType.MessageCall, 1, 2, 30, 7, 4, [1, 2, 3], ⟨0, 0, 0⟩, 0⟩

/-- Sample non-null transaction for the serialization claims. -/
def txC9 : Transaction :=
  ⟨TransactionType.ContractCreation, 1, 2, 3, 4, 5, [6], ⟨7, 8, 1⟩, 0⟩

/-- Sample null transaction. -/
def txNull : Transaction :=
  ⟨TransactionType.NullTransaction, 1, 2, 3, 4, 5, [6], ⟨7, 8, 1⟩, 0⟩

/-- Concrete item list whose field 5 is not a data item but whose field 3
is malformed first (3 bytes, not 20): decoding fails with BadCast at
field 3, not with BadRLP at field 5. -/
def cexList5 : List RLPItem :=
  [RLPItem.bytes [], RLPItem.bytes [], RLPItem.bytes [],
   RLPItem.bytes [1, 2, 3], RLPItem.bytes [], RLPItem.list [],
   RLPItem.bytes [], RLPItem.bytes [1], RLPItem.bytes [1]]

/-- Concrete well-formed item list with a tenth trailing field. -/
def tenList : List RLPItem :=
  [RLPItem.bytes [], RLPItem.bytes [], RLPItem.bytes [],
   RLPItem.bytes [], RLPItem.bytes [], RLPItem.bytes [],
   RLPItem.bytes [], RLPItem.bytes [1], RLPItem.bytes [1],
   RLPItem.bytes []]

/-- Concrete item list decoding to a contract creation. -/
def ccList : List RLPItem :=
  [RLPItem.bytes [1], RLPItem.bytes [], RLPItem.bytes [],
   RLPItem.bytes [], RLPItem.bytes [], RLPItem.bytes [2, 3],
   RLPItem.bytes [27], RLPItem.bytes [1], RLPItem.bytes [1]]

/-- The transaction ccList decodes to. -/
def ccTx : Transaction :=
  ⟨TransactionType.ContractCreation, 1, 0, 0, 0, 0, [2, 3], ⟨1, 1, 0⟩, 0⟩

/-- Concrete item list whose wire v field holds 0: the stored v wraps to
229 under byte subtraction of 27. -/
def vZeroList : List RLPItem :=
  [RLPItem.bytes [], RLPItem.bytes [], RLPItem.bytes [],
   RLPItem.bytes [], RLPItem.bytes [], RLPItem.bytes [],
   RLPItem.bytes [], RLPItem.bytes [], RLPItem.bytes []]

/-- The transaction vZeroList decodes to under mode None. -/
def vZeroTx : Transaction :=
  ⟨TransactionType.ContractCreation, 0, 0, 0, 0, 0, [], ⟨0, 0, 229⟩, 0⟩

/-- Concrete item list with a valid signature shape but a 5-byte payload
and only 1 supplied gas, failing the payment precheck. -/
def lowGasList : List RLPItem :=
  [RLPItem.bytes [], RLPItem.bytes [], RLPItem.bytes [1],
   RLPItem.bytes [], RLPItem.bytes [], RLPItem.bytes [1, 2, 3, 4, 5],
   RLPItem.bytes [27], RLPItem.bytes [1], RLPItem.bytes [1]]

/-- The transaction lowGasList decodes to before the payment precheck. -/
def lowGasTx : Transaction :=
  ⟨TransactionType.ContractCreation, 0, 0, 1, 0, 0, [1, 2, 3, 4, 5], ⟨1, 1, 0⟩, 0⟩

/-- The transaction produced by re-decoding the signed encoding of t:
same fields, the given decoded recipient and signature, unset sender
cache. -/
def decodedOf (t : Transaction) (ra : Nat) (sg : SignatureStruct) : Transaction :=
  { m_type := t.m_type, m_nonce := t.m_nonce, m_gasPrice := t.m_gasPrice,
    m_gas := t.m_gas, m_receiveAddress := ra, m_value := t.m_value,
    m_data := t.m_data, m_vrs := sg, m_sender := 0 }
theorem leVal_natToLE (n : Nat) : leVal (natToLE n) = n := by
  induction n using Nat.strong_induction_on with
  | _ n ih =>
    by_cases h : n = 0
    · subst h; simp [natToLE, leVal]
    · rw [natToLE]
      simp only [h, dite_false]
      have hlt : n / 256 < n := Nat.div_lt_self (Nat.pos_of_ne_zero h) (by decide)
      have := ih (n / 256) hlt
      simp [leVal] at this ⊢
      rw [this]
      omega

theorem beVal_reverse (bs : List Nat) : beVal bs.reverse = leVal bs := by
  rw [beVal, List.foldl_reverse]
  rfl

theorem beVal_natToBE (n : Nat) : beVal (natToBE n) = n := by
  rw [natToBE, beVal_reverse, leVal_natToLE]

theorem natToLE_length (n k : Nat) (h : n < 256 ^ k) : (natToLE n).length ≤ k := by
  induction n using Nat.strong_induction_on generalizing k with
  | _ n ih =>
    by_cases h0 : n = 0
    · subst h0; simp [natToLE]
    · rw [natToLE]
      simp only [h0, dite_false, List.length_cons]
      cases k with
      | zero => simp at h; omega
      | succ k =>
        have hlt : n / 256 < n := Nat.div_lt_self (Nat.pos_of_ne_zero h0) (by decide)
        have hdiv : n / 256 < 256 ^ k := by
          rw [Nat.div_lt_iff_lt_mul (by decide : 0 < 256)]
          calc n < 256 ^ (k + 1) := h
            _ = 256 ^ k * 256 := by rw [Nat.pow_succ]
        have := ih (n / 256) hlt k hdiv
        omega

theorem natToBE_length (n k : Nat) (h : n < 256 ^ k) : (natToBE n).length ≤ k := by
  rw [natToBE, List.length_reverse]
  exact natToLE_length n k h

theorem pow256_32 : (2 : Nat) ^ 256 = 256 ^ 32 := by norm_num

theorem toInt256_natToBE (n : Nat) (h : n < 2 ^ 256) :
    toInt256 (some (RLPItem.bytes (natToBE n))) = Except.ok n := by
  have hlen : (natToBE n).length ≤ 32 := natToBE_length n 32 (by rw [← pow256_32]; exact h)
  simp only [toInt256]
  rw [if_neg (by omega)]
  rw [beVal_natToBE]

theorem toIntByte_natToBE (n : Nat) (h : n < 256) :
    toIntByte (some (RLPItem.bytes (natToBE n))) = Except.ok n := by
  have hlen : (natToBE n).length ≤ 1 := natToBE_length n 1 (by simpa using h)
  simp only [toIntByte]
  rw [if_neg (by omega)]
  rw [beVal_natToBE]

theorem beVal_replicate_zero (m : Nat) (bs : List Nat) :
    beVal (List.replicate m 0 ++ bs) = beVal bs := by
  induction m with
  | zero => simp
  | succ m ih => simpa [beVal, List.replicate_succ] using ih

theorem fixedBE_length (w n : Nat) (h : n < 256 ^ w) : (fixedBE w n).length = w := by
  have hlen : (natToBE n).length ≤ w := natToBE_length n w h
  simp [fixedBE]
  omega

theorem beVal_fixedBE (w n : Nat) : beVal (fixedBE w n) = n := by
  rw [fixedBE, beVal_replicate_zero, beVal_natToBE]

theorem toHashAddr_fixedBE (n : Nat) (h : n < 256 ^ 20) :
    toHashAddr (some (RLPItem.bytes (fixedBE 20 n))) = Except.ok n := by
  simp only [toHashAddr]
  rw [if_pos (fixedBE_length 20 n h)]
  rw [beVal_fixedBE]

theorem isEmptyItem_fixedBE (n : Nat) (h : n < 256 ^ 20) :
    isEmptyItem (some (RLPItem.bytes (fixedBE 20 n))) = false := by
  have hl := fixedBE_length 20 n h
  cases hfe : fixedBE 20 n with
  | nil => rw [hfe] at hl; simp at hl
  | cons a l => simp [isEmptyItem]

theorem hashUnsigned_set_sender (C : Crypto) (t : Transaction) (x : Nat) :
    hashUnsigned C { t with m_sender := x } = hashUnsigned C t := by
  simp [hashUnsigned, streamRLP, rlpFields]

theorem senderI_post_fields (C : Crypto) (t : Transaction) :
    (senderI C t).post.m_type = t.m_type ∧
    (senderI C t).post.m_nonce = t.m_nonce ∧
    (senderI C t).post.m_gasPrice = t.m_gasPrice ∧
    (senderI C t).post.m_gas = t.m_gas ∧
    (senderI C t).post.m_receiveAddress = t.m_receiveAddress ∧
    (senderI C t).post.m_value = t.m_value ∧
    (senderI C t).post.m_data = t.m_data ∧
    (senderI C t).post.m_vrs = t.m_vrs := by
  unfold senderI
  by_cases h : t.m_sender = 0
  · simp only [h, if_pos rfl]
    cases C.recover t.m_vrs (hashUnsigned C t) <;> simp
  · simp [h]

theorem senderI_error_inv (C : Crypto) (t : Transaction) (e : TxErr)
    (h : (senderI C t).result = Except.error e) : e = TxErr.InvalidSignature := by
  unfold senderI at h
  by_cases h0 : t.m_sender = 0
  · simp only [h0, if_pos rfl] at h
    cases hr : C.recover t.m_vrs (hashUnsigned C t) <;> rw [hr] at h <;> simp_all
  · simp [h0] at h

theorem senderI_stable (C : Crypto) (t : Transaction) (a : Nat)
    (h : (senderI C t).result = Except.ok a) :
    (senderI C (senderI C t).post).result = Except.ok a := by
  by_cases h0 : t.m_sender = 0
  · cases hr : C.recover t.m_vrs (hashUnsigned C t) with
    | none =>
      have hres : (senderI C t).result = Except.error TxErr.InvalidSignature := by
        simp [senderI, h0, hr]
      rw [hres] at h
      exact absurd h (by simp)
    | some p =>
      have hpost : (senderI C t).post = { t with m_sender := C.sha3pub p % 2 ^ 160 } := by
        simp [senderI, h0, hr]
      have hres : (senderI C t).result = Except.ok (C.sha3pub p % 2 ^ 160) := by
        simp [senderI, h0, hr]
      rw [hres] at h
      injection h with h
      subst h
      rw [hpost]
      unfold senderI
      split
      · simp [hashUnsigned_set_sender, hr]
      · simp
  · have hpost : (senderI C t).post = t := by simp [senderI, h0]
    have hres : (senderI C t).result = Except.ok t.m_sender := by simp [senderI, h0]
    rw [hres] at h
    injection h with h
    subst h
    rw [hpost]
    simp [senderI, h0]

theorem except_ok_bind {α β : Type} (a : α) (f : α → Except TxErr β) :
    (Except.ok a >>= f) = f a := rfl

theorem except_bind_ok {α β : Type} (x : Except TxErr α) (f : α → Except TxErr β) (b : β)
    (h : (x >>= f) = Except.ok b) : ∃ a, x = Except.ok a ∧ f a = Except.ok b := by
  cases x with
  | ok a => exact ⟨a, rfl, h⟩
  | error e => exact absurd h (by simp [Bind.bind, Except.bind])

theorem except_bind_error {α β : Type} (x : Except TxErr α) (f : α → Except TxErr β) (e : TxErr)
    (h : (x >>= f) = Except.error e) :
    x = Except.error e ∨ ∃ a, x = Except.ok a ∧ f a = Except.error e := by
  cases x with
  | ok a => exact Or.inr ⟨a, rfl, h⟩
  | error e0 =>
    left
    have : (Except.error e0 >>= f) = (Except.error e0 : Except TxErr β) := rfl
    rw [this] at h
    injection h with h
    rw [h]

theorem toInt256_error (o : Option RLPItem) (e : TxErr) (h : toInt256 o = Except.error e) :
    e = TxErr.BadCast := by
  unfold toInt256 at h
  split at h
  · split at h
    · injection h with h; exact h.symm
    · exact absurd h (by simp)
  · injection h with h; exact h.symm

theorem toIntByte_error (o : Option RLPItem) (e : TxErr) (h : toIntByte o = Except.error e) :
    e = TxErr.BadCast := by
  unfold toIntByte at h
  split at h
  · split at h
    · injection h with h; exact h.symm
    · exact absurd h (by simp)
  · injection h with h; exact h.symm

theorem toBytesItem_error (o : Option RLPItem) (e : TxErr) (h : toBytesItem o = Except.error e) :
    e = TxErr.BadCast := by
  unfold toBytesItem at h
  split at h
  · exact absurd h (by simp)
  · injection h with h; exact h.symm

theorem toHashAddr_error (o : Option RLPItem) (e : TxErr) (h : toHashAddr o = Except.error e) :
    e = TxErr.BadCast := by
  unfold toHashAddr at h
  split at h
  · split at h
    · exact absurd h (by simp)
    · injection h with h; exact h.symm
  · injection h with h; exact h.symm

theorem field3Addr_error (xs : List RLPItem) (e : TxErr) (h : field3Addr xs = Except.error e) :
    e = TxErr.BadCast := by
  unfold field3Addr at h
  split at h
  · exact absurd h (by simp)
  · exact toHashAddr_error _ _ h

theorem decodeCore_list_ok_inv (xs : List RLPItem) (t : Transaction)
    (h : decodeCore (RLPItem.list xs) = Except.ok t) :
    ∃ nonce gasPrice gas ra value d w r s,
      toInt256 (xs.get? 0) = Except.ok nonce ∧
      toInt256 (xs.get? 1) = Except.ok gasPrice ∧
      toInt256 (xs.get? 2) = Except.ok gas ∧
      field3Addr xs = Except.ok ra ∧
      toInt256 (xs.get? 4) = Except.ok value ∧
      isDataItem (xs.get? 5) = true ∧
      toBytesItem (xs.get? 5) = Except.ok d ∧
      toIntByte (xs.get? 6) = Except.ok w ∧
      toInt256 (xs.get? 7) = Except.ok r ∧
      toInt256 (xs.get? 8) = Except.ok s ∧
      xs.length ≤ 9 ∧
      t = { m_type :=
              if isEmptyItem (xs.get? 3) then TransactionType.ContractCreation
              else TransactionType.MessageCall,
            m_nonce := nonce, m_gasPrice := gasPrice, m_gas := gas,
            m_receiveAddress := ra, m_value := value, m_data := d,
            m_vrs := { r := r, s := s, v := (w + 229) % 256 },
            m_sender := 0 } := by
  simp only [decodeCore] at h
  obtain ⟨nonce, h0, h⟩ := except_bind_ok _ _ _ h
  obtain ⟨gasPrice, h1, h⟩ := except_bind_ok _ _ _ h
  obtain ⟨gas, h2, h⟩ := except_bind_ok _ _ _ h
  obtain ⟨ra, h3, h⟩ := except_bind_ok _ _ _ h
  obtain ⟨value, h4, h⟩ := except_bind_ok _ _ _ h
  by_cases h5 : isDataItem (xs.get? 5) = false
  · rw [if_pos h5] at h
    exact absurd h (by simp)
  · rw [if_neg h5] at h
    obtain ⟨d, h6, h⟩ := except_bind_ok _ _ _ h
    obtain ⟨w, h7, h⟩ := except_bind_ok _ _ _ h
    obtain ⟨r, h8, h⟩ := except_bind_ok _ _ _ h
    obtain ⟨s, h9, h⟩ := except_bind_ok _ _ _ h
    by_cases h10 : xs.length > 9
    · rw [if_pos h10] at h
      exact absurd h (by simp)
    · rw [if_neg h10] at h
      injection h with h
      refine ⟨nonce, gasPrice, gas, ra, value, d, w, r, s,
        h0, h1, h2, h3, h4, ?_, h6, h7, h8, h9, by omega, h.symm⟩
      revert h5
      cases isDataItem (xs.get? 5) <;> simp

theorem decodeCore_list_ok_eval (xs : List RLPItem)
    (nonce gasPrice gas ra value : Nat) (d : List Nat) (w r s : Nat)
    (h0 : toInt256 (xs.get? 0) = Except.ok nonce)
    (h1 : toInt256 (xs.get? 1) = Except.ok gasPrice)
    (h2 : toInt256 (xs.get? 2) = Except.ok gas)
    (h3 : field3Addr xs = Except.ok ra)
    (h4 : toInt256 (xs.get? 4) = Except.ok value)
    (h5 : isDataItem (xs.get? 5) = true)
    (h6 : toBytesItem (xs.get? 5) = Except.ok d)
    (h7 : toIntByte (xs.get? 6) = Except.ok w)
    (h8 : toInt256 (xs.get? 7) = Except.ok r)
    (h9 : toInt256 (xs.get? 8) = Except.ok s)
    (h10 : xs.length ≤ 9) :
    decodeCore (RLPItem.list xs) =
      Except.ok
        { m_type :=
            if isEmptyItem (xs.get? 3) then TransactionType.ContractCreation
            else TransactionType.MessageCall,
          m_nonce := nonce, m_gasPrice := gasPrice, m_gas := gas,
          m_receiveAddress := ra, m_value := value, m_data := d,
          m_vrs := { r := r, s := s, v := (w + 229) % 256 },
          m_sender := 0 } := by
  have h10' : ¬ xs.length > 9 := by omega
  simp only [decodeCore, h0, h1, h2, h3, h4, h5, h6, h7, h8, h9,
    except_ok_bind, h10', if_false, if_neg, Bool.true_eq_false, ite_false]

theorem decodeCore_error_inv (it : RLPItem) (e : TxErr)
    (h : decodeCore it = Except.error e) : e = TxErr.BadRLP ∨ e = TxErr.BadCast := by
  cases it with
  | bytes bs =>
    simp only [decodeCore] at h
    injection h with h
    exact Or.inl h.symm
  | list xs =>
    simp only [decodeCore] at h
    rcases except_bind_error _ _ _ h with h | ⟨nonce, h0, h⟩
    · exact Or.inr (toInt256_error _ _ h)
    rcases except_bind_error _ _ _ h with h | ⟨gasPrice, h1, h⟩
    · exact Or.inr (toInt256_error _ _ h)
    rcases except_bind_error _ _ _ h with h | ⟨gas, h2, h⟩
    · exact Or.inr (toInt256_error _ _ h)
    rcases except_bind_error _ _ _ h with h | ⟨ra, h3, h⟩
    · exact Or.inr (field3Addr_error _ _ h)
    rcases except_bind_error _ _ _ h with h | ⟨value, h4, h⟩
    · exact Or.inr (toInt256_error _ _ h)
    by_cases h5 : isDataItem (xs.get? 5) = false
    · rw [if_pos h5] at h
      injection h with h
      exact Or.inl h.symm
    rw [if_neg h5] at h
    rcases except_bind_error _ _ _ h with h | ⟨d, h6, h⟩
    · exact Or.inr (toBytesItem_error _ _ h)
    rcases except_bind_error _ _ _ h with h | ⟨w, h7, h⟩
    · exact Or.inr (toIntByte_error _ _ h)
    rcases except_bind_error _ _ _ h with h | ⟨r, h8, h⟩
    · exact Or.inr (toInt256_error _ _ h)
    rcases except_bind_error _ _ _ h with h | ⟨s, h9, h⟩
    · exact Or.inr (toInt256_error _ _ h)
    by_cases h10 : xs.length > 9
    · rw [if_pos h10] at h
      injection h with h
      exact Or.inl h.symm
    · rw [if_neg h10] at h
      exact absurd h (by simp)

theorem except_error_bind {α β : Type} (e : TxErr) (f : α → Except TxErr β) :
    ((Except.error e : Except TxErr α) >>= f) = Except.error e := rfl

theorem decodeTx_core_error (C : Crypto) (it : RLPItem) (mode : CheckTransaction) (e : TxErr)
    (h : decodeCore it = Except.error e) : decodeTx C it mode = Except.error e := by
  simp only [decodeTx, h, except_error_bind]

theorem decodeTx_ok_fields (C : Crypto) (it : RLPItem) (mode : CheckTransaction)
    (t : Transaction) (h : decodeTx C it mode = Except.ok t) :
    ∃ t0, decodeCore it = Except.ok t0 ∧
      t.m_type = t0.m_type ∧ t.m_receiveAddress = t0.m_receiveAddress ∧
      t.m_vrs = t0.m_vrs ∧ t.m_data = t0.m_data ∧ t.m_gas = t0.m_gas ∧
      (mode.rank ≥ 1 → sigValid t0.m_vrs) := by
  simp only [decodeTx] at h
  obtain ⟨t0, hc, h⟩ := except_bind_ok _ _ _ h
  refine ⟨t0, hc, ?_⟩
  by_cases hsig : mode.rank ≥ 1 ∧ ¬ sigValid t0.m_vrs
  · rw [if_pos hsig] at h
    exact absurd h (by simp)
  · rw [if_neg hsig] at h
    have hsig' : mode.rank ≥ 1 → sigValid t0.m_vrs := by tauto
    by_cases hev : mode = CheckTransaction.Everything
    · rw [if_pos hev] at h
      cases hs : senderI C t0 with
      | mk res post ran =>
        rw [hs] at h
        cases res with
        | ok a =>
          simp only [except_ok_bind] at h
          by_cases hpay : mode.rank ≥ 1 ∧ ¬ checkPayment C post
          · rw [if_pos hpay] at h
            exact absurd h (by simp)
          · rw [if_neg hpay] at h
            injection h with h
            subst h
            have hf := senderI_post_fields C t0
            rw [hs] at hf
            simp only at hf
            exact ⟨hf.1, hf.2.2.2.2.1, hf.2.2.2.2.2.2.2, hf.2.2.2.2.2.2.1, hf.2.2.2.1, hsig'⟩
        | error e =>
          simp only [except_error_bind] at h
          exact absurd h (by simp)
    · rw [if_neg hev] at h
      simp only [except_ok_bind] at h
      by_cases hpay : mode.rank ≥ 1 ∧ ¬ checkPayment C t0
      · rw [if_pos hpay] at h
        exact absurd h (by simp)
      · rw [if_neg hpay] at h
        injection h with h
        subst h
        exact ⟨rfl, rfl, rfl, rfl, rfl, hsig'⟩

theorem decodeTx_oog_inv (C : Crypto) (it : RLPItem) (mode : CheckTransaction) (q g : Nat)
    (h : decodeTx C it mode = Except.error (TxErr.OutOfGasIntrinsic q g)) :
    ∃ t0, decodeCore it = Except.ok t0 ∧ mode.rank ≥ 1 ∧ sigValid t0.m_vrs ∧
      q = C.gasReq t0.m_data ∧ g = t0.m_gas ∧ ¬ q ≤ g := by
  simp only [decodeTx] at h
  rcases except_bind_error _ _ _ h with h | ⟨t0, hc, h⟩
  · rcases decodeCore_error_inv _ _ h with he | he <;> simp at he
  refine ⟨t0, hc, ?_⟩
  by_cases hsig : mode.rank ≥ 1 ∧ ¬ sigValid t0.m_vrs
  · rw [if_pos hsig] at h
    injection h with h
    simp at h
  · rw [if_neg hsig] at h
    by_cases hev : mode = CheckTransaction.Everything
    · rw [if_pos hev] at h
      cases hs : senderI C t0 with
      | mk res post ran =>
        rw [hs] at h
        cases res with
        | ok a =>
          simp only [except_ok_bind] at h
          by_cases hpay : mode.rank ≥ 1 ∧ ¬ checkPayment C post
          · rw [if_pos hpay] at h
            injection h with h
            injection h with hq hg
            have hf := senderI_post_fields C t0
            rw [hs] at hf
            simp only at hf
            have hsig' : sigValid t0.m_vrs := by tauto
            refine ⟨hpay.1, hsig', ?_, ?_, ?_⟩
            · rw [← hq]
              unfold gasRequired
              rw [hf.2.2.2.2.2.2.1]
            · rw [← hg, hf.2.2.2.1]
            · intro hle
              apply hpay.2
              unfold checkPayment
              rw [hq, hg]
              exact hle
          · rw [if_neg hpay] at h
            simp at h
        | error e =>
          simp only [except_error_bind] at h
          injection h with h
          have he := senderI_error_inv C t0 e (by rw [hs])
          subst he
          simp at h
    · rw [if_neg hev] at h
      simp only [except_ok_bind] at h
      by_cases hpay : mode.rank ≥ 1 ∧ ¬ checkPayment C t0
      · rw [if_pos hpay] at h
        injection h with h
        injection h with hq hg
        have hsig' : sigValid t0.m_vrs := by tauto
        refine ⟨hpay.1, hsig', by rw [← hq]; rfl, hg.symm, ?_⟩
        intro hle
        apply hpay.2
        unfold checkPayment
        rw [hq, hg]
        exact hle
      · rw [if_neg hpay] at h
        simp at h

theorem decodeTx_sig_invalid (C : Crypto) (it : RLPItem) (mode : CheckTransaction)
    (t0 : Transaction) (hc : decodeCore it = Except.ok t0)
    (hrank : mode.rank ≥ 1) (hns : ¬ sigValid t0.m_vrs) :
    decodeTx C it mode = Except.error TxErr.InvalidSignature := by
  simp only [decodeTx, hc, except_ok_bind]
  rw [if_pos ⟨hrank, hns⟩]

theorem decodeTx_payment_fail_cheap (C : Crypto) (it : RLPItem) (t0 : Transaction)
    (hc : decodeCore it = Except.ok t0) (hsig : sigValid t0.m_vrs)
    (hpay : ¬ checkPayment C t0) :
    decodeTx C it CheckTransaction.Cheap =
      Except.error (TxErr.OutOfGasIntrinsic (gasRequired C t0) t0.m_gas) := by
  simp only [decodeTx, hc, except_ok_bind]
  rw [if_neg (fun hh => hh.2 hsig)]
  rw [if_neg (by intro hh; exact CheckTransaction.noConfusion hh)]
  rw [if_pos ⟨by decide, hpay⟩]

theorem decodeTx_payment_fail (C : Crypto) (it : RLPItem) (mode : CheckTransaction)
    (t0 : Transaction) (hc : decodeCore it = Except.ok t0)
    (hrank : mode.rank ≥ 1) (hsig : sigValid t0.m_vrs)
    (hpay : ¬ checkPayment C t0)
    (ha : mode = CheckTransaction.Everything → ∃ a, (senderI C t0).result = Except.ok a) :
    decodeTx C it mode =
      Except.error (TxErr.OutOfGasIntrinsic (gasRequired C t0) t0.m_gas) := by
  simp only [decodeTx, hc, except_ok_bind]
  rw [if_neg (fun hh => hh.2 hsig)]
  by_cases hev : mode = CheckTransaction.Everything
  · rw [if_pos hev]
    obtain ⟨a, hres⟩ := ha hev
    have hf := senderI_post_fields C t0
    cases hs : senderI C t0 with
    | mk res post ran =>
      rw [hs] at hres hf
      simp only at hres hf
      cases res with
      | ok b =>
        simp only [except_ok_bind]
        have hp : ¬ checkPayment C post := by
          unfold checkPayment gasRequired
          rw [hf.2.2.2.2.2.2.1, hf.2.2.2.1]
          exact hpay
        rw [if_pos ⟨hrank, hp⟩]
        unfold gasRequired
        rw [hf.2.2.2.2.2.2.1, hf.2.2.2.1]
      | error e => exact absurd hres (by simp)
  · rw [if_neg hev]
    rw [if_pos ⟨hrank, hpay⟩]

theorem decodeTx_eval_ok (C : Crypto) (it : RLPItem) (mode : CheckTransaction)
    (t0 : Transaction) (hc : decodeCore it = Except.ok t0)
    (hsig : sigValid t0.m_vrs) (hpay : checkPayment C t0)
    (ha : mode = CheckTransaction.Everything → ∃ a, (senderI C t0).result = Except.ok a) :
    decodeTx C it mode =
      Except.ok
        (if mode = CheckTransaction.Everything then (senderI C t0).post else t0) := by
  simp only [decodeTx, hc, except_ok_bind]
  rw [if_neg (fun hh => hh.2 hsig)]
  by_cases hev : mode = CheckTransaction.Everything
  · rw [if_pos hev, if_pos hev]
    obtain ⟨a, hres⟩ := ha hev
    have hf := senderI_post_fields C t0
    cases hs : senderI C t0 with
    | mk res post ran =>
      rw [hs] at hres hf
      simp only at hres hf
      cases res with
      | ok b =>
        simp only [except_ok_bind]
        have hp : checkPayment C post := by
          unfold checkPayment gasRequired
          rw [hf.2.2.2.2.2.2.1, hf.2.2.2.1]
          exact hpay
        rw [if_neg (fun hh => hh.2 hp)]
      | error e => exact absurd hres (by simp)
  · rw [if_neg hev, if_neg hev]
    rw [if_neg (fun hh => hh.2 hpay)]

theorem decodeCore_field5_badrlp (xs : List RLPItem)
    (nonce gasPrice gas ra value : Nat)
    (h0 : toInt256 (xs.get? 0) = Except.ok nonce)
    (h1 : toInt256 (xs.get? 1) = Except.ok gasPrice)
    (h2 : toInt256 (xs.get? 2) = Except.ok gas)
    (h3 : field3Addr xs = Except.ok ra)
    (h4 : toInt256 (xs.get? 4) = Except.ok value)
    (h5 : isDataItem (xs.get? 5) = false) :
    decodeCore (RLPItem.list xs) = Except.error TxErr.BadRLP := by
  simp only [decodeCore, h0, h1, h2, h3, h4, except_ok_bind]
  rw [if_pos h5]

theorem decodeCore_toomany_badrlp (xs : List RLPItem)
    (nonce gasPrice gas ra value : Nat) (d : List Nat) (w r s : Nat)
    (h0 : toInt256 (xs.get? 0) = Except.ok nonce)
    (h1 : toInt256 (xs.get? 1) = Except.ok gasPrice)
    (h2 : toInt256 (xs.get? 2) = Except.ok gas)
    (h3 : field3Addr xs = Except.ok ra)
    (h4 : toInt256 (xs.get? 4) = Except.ok value)
    (h5 : isDataItem (xs.get? 5) = true)
    (h6 : toBytesItem (xs.get? 5) = Except.ok d)
    (h7 : toIntByte (xs.get? 6) = Except.ok w)
    (h8 : toInt256 (xs.get? 7) = Except.ok r)
    (h9 : toInt256 (xs.get? 8) = Except.ok s)
    (h10 : xs.length > 9) :
    decodeCore (RLPItem.list xs) = Except.error TxErr.BadRLP := by
  simp only [decodeCore, h0, h1, h2, h3, h4, h5, h6, h7, h8, h9, except_ok_bind,
    Bool.true_eq_false, if_false, ite_false]
  rw [if_pos h10]

theorem demo_recover_sign (k h : Nat) :
    demoCrypto.recover (demoCrypto.sign k h) h = some (demoCrypto.toPublic k) := by
  simp [demoCrypto]

theorem demo_sign_valid (k h : Nat) : sigValid (demoCrypto.sign k h) := by
  have hn : 2 ≤ c_secp256k1n := by norm_num [c_secp256k1n]
  have hm : k % (c_secp256k1n - 1) < c_secp256k1n - 1 := Nat.mod_lt k (by omega)
  unfold sigValid
  refine ⟨?_, ?_, ?_, ?_, ?_⟩ <;> simp [demoCrypto] <;> omega

theorem pow256_20 : (2 : Nat) ^ 160 = 256 ^ 20 := by norm_num

theorem secp_lt_pow256 : c_secp256k1n < 2 ^ 256 := by norm_num [c_secp256k1n]

/-- C10: for every transaction whose type is NullTransaction, streamRLP
appends nothing to the output stream — with either value of
includeSignature the stream is left exactly as it was. -/
theorem c10_streamRLP_null (t : Transaction) (withSig : Bool) (s : List RLPItem)
    (h : t.m_type = TransactionType.NullTransaction) :
    streamRLP t withSig s = s := by
  simp [streamRLP, h]

/-- Witness for c10_streamRLP_null at a concrete null transaction and a
nonempty stream. -/
theorem c10_streamRLP_null_witness :
    streamRLP txNull true [RLPItem.bytes [7]] = [RLPItem.bytes [7]] :=
  c10_streamRLP_null txNull true [RLPItem.bytes [7]] rfl

/-- C9: for every non-null transaction, streamRLP without signature emits
one list of exactly the 6 items nonce, gasPrice, gas, recipient-or-empty,
value, data — no signature fields — and with signature one list of
exactly 9 items whose last three are v plus 27, r and s; the 6-item form
is what the signing hash is computed over. -/
theorem c9_streamRLP_fields (C : Crypto) (t : Transaction) (s : List RLPItem)
    (h : t.m_type ≠ TransactionType.NullTransaction) :
    rlpFields t false =
      [RLPItem.bytes (natToBE t.m_nonce), RLPItem.bytes (natToBE t.m_gasPrice),
       RLPItem.bytes (natToBE t.m_gas),
       (if t.m_type = TransactionType.MessageCall then
          RLPItem.bytes (fixedBE 20 t.m_receiveAddress)
        else RLPItem.bytes []),
       RLPItem.bytes (natToBE t.m_value), RLPItem.bytes t.m_data] ∧
    (rlpFields t false).length = 6 ∧
    rlpFields t true = rlpFields t false ++
      [RLPItem.bytes (natToBE (t.m_vrs.v + 27)), RLPItem.bytes (natToBE t.m_vrs.r),
       RLPItem.bytes (natToBE t.m_vrs.s)] ∧
    (rlpFields t true).length = 9 ∧
    streamRLP t false s = s ++ [RLPItem.list (rlpFields t false)] ∧
    streamRLP t true s = s ++ [RLPItem.list (rlpFields t true)] ∧
    hashUnsigned C t = C.sha3s [RLPItem.list (rlpFields t false)] := by
  refine ⟨by simp [rlpFields], by simp [rlpFields], by simp [rlpFields],
    by simp [rlpFields], by simp [streamRLP, h], by simp [streamRLP, h],
    by simp [hashUnsigned, streamRLP, h]⟩

/-- Witness for c9_streamRLP_fields at a concrete non-null transaction. -/
theorem c9_streamRLP_fields_witness :
    (rlpFields txC9 false).length = 6 ∧ (rlpFields txC9 true).length = 9 ∧
    streamRLP txC9 true [] = [RLPItem.list (rlpFields txC9 true)] := by
  have h := c9_streamRLP_fields demoCrypto txC9 [] (by decide)
  exact ⟨h.2.1, h.2.2.2.1, h.2.2.2.2.2.1⟩

/-- C2: safeSender never raises — whenever sender() raises it returns the
defined zero address, and whenever sender() succeeds it returns the same
address. -/
theorem c2_safeSender_spec (C : Crypto) (t : Transaction) :
    (∀ e, (senderI C t).result = Except.error e → (safeSender C t).1 = 0) ∧
    (∀ a, (senderI C t).result = Except.ok a → (safeSender C t).1 = a) := by
  cases hs : senderI C t with
  | mk res post ran =>
    cases res with
    | ok a =>
      constructor
      · intro e he
        simp at he
      · intro a0 ha0
        simp only at ha0
        injection ha0 with ha0
        unfold safeSender
        rw [hs]
        simp [ha0]
    | error e0 =>
      constructor
      · intro e he
        unfold safeSender
        rw [hs]
      · intro a ha
        simp at ha

/-- Witness for c2_safeSender_spec: a transaction with tampered s fails
sender() with InvalidSignature, and safeSender returns the zero address
on it. -/
theorem c2_safeSender_spec_witness :
    (senderI demoCrypto txBad).result = Except.error TxErr.InvalidSignature ∧
    (safeSender demoCrypto txBad).1 = 0 :=
  ⟨by decide,
   (c2_safeSender_spec demoCrypto txBad).1 TxErr.InvalidSignature (by decide)⟩

/-- C4: in the two-node scenario — node A watching the mask built from
the topic string odd, node B posting ten envelopes with payload i * i
under topic odd for odd i and even otherwise — node A eventually observes
exactly the payloads 1, 9, 25, 49, 81 (sum 165), each exactly once, and
no payload for even i. -/
theorem c4_whisper_scenario :
    wObserved wOddMask wScenarioEnvs = [1, 9, 25, 49, 81] ∧
    (wObserved wOddMask wScenarioEnvs).sum = 165 ∧
    (wObserved wOddMask wScenarioEnvs).Nodup := by decide

/-- C1 (amended): the first sender() call on an unset cache runs recovery
over the hash of the canonical unsigned encoding, raises InvalidSignature
when recovery yields no public key, and otherwise caches and returns the
derived address; a call on a nonzero cache returns it without running
recovery; and after any successful call every later call returns the same
address, skipping recovery whenever the cached address is nonzero (a
derived zero address is indistinguishable from the unset cache, so
recovery then re-runs, deterministically returning the same address). -/
theorem c1_sender_memoization (C : Crypto) (t : Transaction) :
    (t.m_sender = 0 → C.recover t.m_vrs (hashUnsigned C t) = none →
       senderI C t = ⟨Except.error TxErr.InvalidSignature, t, true⟩) ∧
    (∀ p, t.m_sender = 0 → C.recover t.m_vrs (hashUnsigned C t) = some p →
       senderI C t =
         ⟨Except.ok (C.sha3pub p % 2 ^ 160),
          { t with m_sender := C.sha3pub p % 2 ^ 160 }, true⟩) ∧
    (t.m_sender ≠ 0 → senderI C t = ⟨Except.ok t.m_sender, t, false⟩) ∧
    (∀ a, (senderI C t).result = Except.ok a →
       (senderI C (senderI C t).post).result = Except.ok a ∧
       (a ≠ 0 → (senderI C (senderI C t).post).ranRecovery = false)) := by
  refine ⟨?_, ?_, ?_, ?_⟩
  · intro h0 hr
    simp [senderI, h0, hr]
  · intro p h0 hr
    simp [senderI, h0, hr]
  · intro h0
    simp [senderI, h0]
  · intro a ha
    refine ⟨senderI_stable C t a ha, ?_⟩
    intro hna
    by_cases h0 : t.m_sender = 0
    · cases hr : C.recover t.m_vrs (hashUnsigned C t) with
      | none =>
        have : (senderI C t).result = Except.error TxErr.InvalidSignature := by
          simp [senderI, h0, hr]
        rw [this] at ha
        exact absurd ha (by simp)
      | some p =>
        have hres : (senderI C t).result = Except.ok (C.sha3pub p % 2 ^ 160) := by
          simp [senderI, h0, hr]
        have hpost : (senderI C t).post = { t with m_sender := C.sha3pub p % 2 ^ 160 } := by
          simp [senderI, h0, hr]
        rw [hres] at ha
        injection ha with ha
        rw [hpost]
        rw [← ha] at hna
        unfold senderI
        rw [if_neg (show ({ t with m_sender := C.sha3pub p % 2 ^ 160 } :
          Transaction).m_sender ≠ 0 from hna)]
    · have hres : (senderI C t).result = Except.ok t.m_sender := by simp [senderI, h0]
      have hpost : (senderI C t).post = t := by simp [senderI, h0]
      rw [hpost]
      simp [senderI, h0]

/-- Counterexample for C1 as stated: under crypto parameters for which the
recovered key hashes to the zero address, the first sender() call succeeds
and caches, yet the next call runs recovery again, because the zero
address is the cache's unset sentinel. -/
theorem c1_sender_memoization_cex :
    (senderI zeroCrypto txZeroAddr).result = Except.ok 0 ∧
    (senderI zeroCrypto (senderI zeroCrypto txZeroAddr).post).ranRecovery = true := by
  refine ⟨by decide, by decide⟩

/-- Witness for c1_sender_memoization: a concrete first call that runs
recovery, caches the derived address, and whose repeat call skips
recovery. -/
theorem c1_sender_memoization_witness :
    senderI demoCrypto txW =
      ⟨Except.ok (demoCrypto.sha3pub 4 % 2 ^ 160),
       { txW with m_sender := demoCrypto.sha3pub 4 % 2 ^ 160 }, true⟩ ∧
    (senderI demoCrypto (senderI demoCrypto txW).post).result =
      Except.ok (demoCrypto.sha3pub 4 % 2 ^ 160) ∧
    (senderI demoCrypto (senderI demoCrypto txW).post).ranRecovery = false := by
  have h1 := (c1_sender_memoization demoCrypto txW).2.1 4 rfl (by decide)
  have h2 := (c1_sender_memoization demoCrypto txW).2.2.2 (demoCrypto.sha3pub 4 % 2 ^ 160)
    (by rw [h1])
  exact ⟨h1, h2.1, h2.2 (by decide)⟩

/-- C6: for every successfully decoded transaction, an empty field 3
yields type ContractCreation with the null recipient address, and a
non-empty field 3 yields type MessageCall with exactly the address
decoded from field 3. -/
theorem c6_type_recipient (C : Crypto) (mode : CheckTransaction) (xs : List RLPItem)
    (t : Transaction) (h : decodeTx C (RLPItem.list xs) mode = Except.ok t) :
    (isEmptyItem (xs.get? 3) = true →
       t.m_type = TransactionType.ContractCreation ∧ t.m_receiveAddress = 0) ∧
    (isEmptyItem (xs.get? 3) = false →
       t.m_type = TransactionType.MessageCall ∧
       toHashAddr (xs.get? 3) = Except.ok t.m_receiveAddress) := by
  obtain ⟨t0, hc, hty, hra, _, _, _, _⟩ := decodeTx_ok_fields C _ mode t h
  obtain ⟨nonce, gp, gas, ra, value, d, w, r, s, _, _, _, h3, _, _, _, _, _, _, _, ht0⟩ :=
    decodeCore_list_ok_inv xs t0 hc
  constructor
  · intro he
    unfold field3Addr at h3
    rw [if_pos he] at h3
    injection h3 with h3
    subst ht0
    simp only at hty hra
    rw [if_pos he] at hty
    exact ⟨hty, by rw [hra, ← h3]⟩
  · intro he
    unfold field3Addr at h3
    rw [if_neg (by rw [he]; intro hc0; exact Bool.noConfusion hc0)] at h3
    subst ht0
    simp only at hty hra
    rw [he] at hty
    simp only [Bool.false_eq_true, if_false] at hty
    exact ⟨hty, by rw [h3, hra]⟩

/-- Witness for c6_type_recipient: a concrete decode with empty field 3
produces a contract creation with the null recipient. -/
theorem c6_type_recipient_witness :
    ccTx.m_type = TransactionType.ContractCreation ∧ ccTx.m_receiveAddress = 0 :=
  (c6_type_recipient demoCrypto CheckTransaction.None ccList ccTx (by decide)).1 (by decide)

/-- C8 (amended): the stored v of a decoded transaction is the wire byte
of field 6 minus 27 in byte arithmetic — (w + 229) mod 256, wrapping for
wire values below 27 — normalized before any validity check; and under
Cheap or Everything a triple that is invalid after this normalization
makes construction raise InvalidSignature. -/
theorem c8_v_normalization (C : Crypto) (mode : CheckTransaction) (xs : List RLPItem) :
    (∀ t w, decodeTx C (RLPItem.list xs) mode = Except.ok t →
       toIntByte (xs.get? 6) = Except.ok w → t.m_vrs.v = (w + 229) % 256) ∧
    (∀ t0, decodeCore (RLPItem.list xs) = Except.ok t0 → mode.rank ≥ 1 →
       ¬ sigValid t0.m_vrs →
       decodeTx C (RLPItem.list xs) mode = Except.error TxErr.InvalidSignature) := by
  constructor
  · intro t w h hw
    obtain ⟨t0, hc, _, _, hvrs, _, _, _⟩ := decodeTx_ok_fields C _ mode t h
    obtain ⟨nonce, gp, gas, ra, value, d, w0, r, s, _, _, _, _, _, _, _, hw0, _, _, _, ht0⟩ :=
      decodeCore_list_ok_inv xs t0 hc
    rw [hw0] at hw
    injection hw with hw
    subst hw
    subst ht0
    rw [hvrs]
  · intro t0 hc hrank hns
    exact decodeTx_sig_invalid C _ mode t0 hc hrank hns

/-- Counterexample for C8 as stated: a decoded transaction whose wire v
field holds 0 stores v = 229 by byte wraparound, which is not the integer
0 - 27. -/
theorem c8_v_normalization_cex :
    decodeTx demoCrypto (RLPItem.list vZeroList) CheckTransaction.None =
      Except.ok vZeroTx ∧
    toIntByte (vZeroList.get? 6) = Except.ok 0 ∧
    vZeroTx.m_vrs.v = 229 ∧
    ¬ ((vZeroTx.m_vrs.v : Int) = (0 : Int) - 27) := by
  refine ⟨by decide, by decide, by decide, by decide⟩

/-- Witness for c8_v_normalization: concrete decodes exercising both the
wraparound equation and the InvalidSignature raise. -/
theorem c8_v_normalization_witness :
    ccTx.m_vrs.v = (27 + 229) % 256 ∧
    decodeTx demoCrypto (RLPItem.list vZeroList) CheckTransaction.Cheap =
      Except.error TxErr.InvalidSignature :=
  ⟨(c8_v_normalization demoCrypto CheckTransaction.None ccList).1 ccTx 27
     (by decide) (by decide),
   (c8_v_normalization demoCrypto CheckTransaction.Cheap vZeroList).2 vZeroTx
     (by decide) (by decide) (by decide)⟩

/-- C5 (amended): decoding fails with BadRLP when the outer item is not a
list; when the first five fields decode and the data field (field 5) is
not a raw byte string; or when all nine fields decode and the list has
more than 9 items.  A malformed earlier field instead fails with the
conversion error BadCast — see the counterexample — and every failure
yields an error value, never a transaction. -/
theorem c5_badrlp_conditions (C : Crypto) (mode : CheckTransaction) :
    (∀ bs, decodeTx C (RLPItem.bytes bs) mode = Except.error TxErr.BadRLP) ∧
    (∀ xs nonce gasPrice gas ra value,
       toInt256 (xs.get? 0) = Except.ok nonce →
       toInt256 (xs.get? 1) = Except.ok gasPrice →
       toInt256 (xs.get? 2) = Except.ok gas →
       field3Addr xs = Except.ok ra →
       toInt256 (xs.get? 4) = Except.ok value →
       isDataItem (xs.get? 5) = false →
       decodeTx C (RLPItem.list xs) mode = Except.error TxErr.BadRLP) ∧
    (∀ xs nonce gasPrice gas ra value d w r s,
       toInt256 (xs.get? 0) = Except.ok nonce →
       toInt256 (xs.get? 1) = Except.ok gasPrice →
       toInt256 (xs.get? 2) = Except.ok gas →
       field3Addr xs = Except.ok ra →
       toInt256 (xs.get? 4) = Except.ok value →
       isDataItem (xs.get? 5) = true →
       toBytesItem (xs.get? 5) = Except.ok d →
       toIntByte (xs.get? 6) = Except.ok w →
       toInt256 (xs.get? 7) = Except.ok r →
       toInt256 (xs.get? 8) = Except.ok s →
       xs.length > 9 →
       decodeTx C (RLPItem.list xs) mode = Except.error TxErr.BadRLP) := by
  refine ⟨?_, ?_, ?_⟩
  · intro bs
    exact decodeTx_core_error C _ mode _ rfl
  · intro xs nonce gasPrice gas ra value h0 h1 h2 h3 h4 h5
    exact decodeTx_core_error C _ mode _
      (decodeCore_field5_badrlp xs nonce gasPrice gas ra value h0 h1 h2 h3 h4 h5)
  · intro xs nonce gasPrice gas ra value d w r s h0 h1 h2 h3 h4 h5 h6 h7 h8 h9 h10
    exact decodeTx_core_error C _ mode _
      (decodeCore_toomany_badrlp xs nonce gasPrice gas ra value d w r s
        h0 h1 h2 h3 h4 h5 h6 h7 h8 h9 h10)

/-- Counterexample for C5 as stated: an input whose data field (field 5)
is not a raw byte string, but whose recipient field is malformed and read
first, fails with BadCast rather than BadRLP. -/
theorem c5_badrlp_conditions_cex :
    isDataItem (cexList5.get? 5) = false ∧
    decodeTx demoCrypto (RLPItem.list cexList5) CheckTransaction.Cheap =
      Except.error TxErr.BadCast ∧
    decodeTx demoCrypto (RLPItem.list cexList5) CheckTransaction.Cheap ≠
      Except.error TxErr.BadRLP := by
  refine ⟨by decide, by decide, by decide⟩

/-- Witness for c5_badrlp_conditions: concrete failures for a non-list
outer item and for a ten-item list. -/
theorem c5_badrlp_conditions_witness :
    decodeTx demoCrypto (RLPItem.bytes []) CheckTransaction.None =
      Except.error TxErr.BadRLP ∧
    decodeTx demoCrypto (RLPItem.list tenList) CheckTransaction.None =
      Except.error TxErr.BadRLP :=
  ⟨(c5_badrlp_conditions demoCrypto CheckTransaction.None).1 [],
   (c5_badrlp_conditions demoCrypto CheckTransaction.None).2.2 tenList 0 0 0 0 0 [] 0 1 1
     (by decide) (by decide) (by decide) (by decide) (by decide) (by decide)
     (by decide) (by decide) (by decide) (by decide) (by decide)⟩

/-- C7: the payment precheck runs only after the signature-shape checks —
under mode None construction never raises OutOfGasIntrinsic; whenever it
does raise OutOfGasIntrinsic, the mode was at least Cheap, the decoded
signature was valid, and the exception carries the required gas
(gasRequired) against the supplied gas field, which falls short; and
under every mode at least Cheap — so under both Cheap and Everything — a
decoded transaction with a valid signature and failing payment check
raises exactly that (under Everything the eager sender() recovery sits
between the two checks, so the raise is stated given it succeeds; when it
fails, construction raises InvalidSignature and the payment check never
runs, as part two shows). -/
theorem c7_payment_after_sig (C : Crypto) (mode : CheckTransaction) :
    (∀ it q g,
       decodeTx C it CheckTransaction.None ≠
         Except.error (TxErr.OutOfGasIntrinsic q g)) ∧
    (∀ it q g, decodeTx C it mode = Except.error (TxErr.OutOfGasIntrinsic q g) →
       ∃ t0, decodeCore it = Except.ok t0 ∧ mode.rank ≥ 1 ∧ sigValid t0.m_vrs ∧
         q = gasRequired C t0 ∧ g = t0.m_gas ∧ ¬ q ≤ g) ∧
    (∀ it t0, decodeCore it = Except.ok t0 → mode.rank ≥ 1 → sigValid t0.m_vrs →
       ¬ checkPayment C t0 →
       (mode = CheckTransaction.Everything →
         ∃ a, (senderI C t0).result = Except.ok a) →
       decodeTx C it mode =
         Except.error (TxErr.OutOfGasIntrinsic (gasRequired C t0) t0.m_gas)) := by
  refine ⟨?_, ?_, ?_⟩
  · intro it q g hcontra
    obtain ⟨t0, _, hrank, _⟩ := decodeTx_oog_inv C it CheckTransaction.None q g hcontra
    simp [CheckTransaction.rank] at hrank
  · intro it q g h
    obtain ⟨t0, hc, hrank, hsig, hq, hg, hlt⟩ := decodeTx_oog_inv C it mode q g h
    exact ⟨t0, hc, hrank, hsig, hq, hg, hlt⟩
  · intro it t0 hc hrank hsig hpay ha
    exact decodeTx_payment_fail C it mode t0 hc hrank hsig hpay ha

/-- Witness for c7_payment_after_sig: a concrete underfunded transaction
raises OutOfGasIntrinsic carrying required gas 5 against supplied gas 1,
both under Cheap and under Everything (where its sender recovery
succeeds). -/
theorem c7_payment_after_sig_witness :
    decodeTx demoCrypto (RLPItem.list lowGasList) CheckTransaction.Cheap =
      Except.error (TxErr.OutOfGasIntrinsic (gasRequired demoCrypto lowGasTx)
        lowGasTx.m_gas) ∧
    decodeTx demoCrypto (RLPItem.list lowGasList) CheckTransaction.Everything =
      Except.error (TxErr.OutOfGasIntrinsic (gasRequired demoCrypto lowGasTx)
        lowGasTx.m_gas) :=
  ⟨(c7_payment_after_sig demoCrypto CheckTransaction.Cheap).2.2
     (RLPItem.list lowGasList) lowGasTx (by decide) (by decide) (by decide) (by decide)
     (fun hev => absurd hev (by intro hh; exact CheckTransaction.noConfusion hh)),
   (c7_payment_after_sig demoCrypto CheckTransaction.Everything).2.2
     (RLPItem.list lowGasList) lowGasTx (by decide) (by decide) (by decide) (by decide)
     (fun _ => ⟨1, by decide⟩)⟩

theorem senderI_recover_ok (C : Crypto) (t : Transaction) (p : Nat)
    (h0 : t.m_sender = 0) (hr : C.recover t.m_vrs (hashUnsigned C t) = some p) :
    (senderI C t).result = Except.ok (C.sha3pub p % 2 ^ 160) := by
  simp [senderI, h0, hr]

/-- C3: signing a transaction with a secret key, serializing it with the
signature included (streamRLP with signature), and decoding those bytes
yields a transaction whose sender() equals the address derived from the
signer's public key.  Stated over any crypto parameters satisfying the
recovery round-trip and signature-validity laws of the elliptic-curve
collaborator, for any non-null transaction with in-range fields whose
payload satisfies the payment precheck, under every checking mode. -/
theorem c3_sign_roundtrip (C : Crypto) (t : Transaction) (k : Nat)
    (mode : CheckTransaction)
    (hrec : ∀ k0 h0, C.recover (C.sign k0 h0) h0 = some (C.toPublic k0))
    (hval : ∀ k0 h0, sigValid (C.sign k0 h0))
    (hty : t.m_type ≠ TransactionType.NullTransaction)
    (hnonce : t.m_nonce < 2 ^ 256) (hgp : t.m_gasPrice < 2 ^ 256)
    (hgas : t.m_gas < 2 ^ 256) (hvalue : t.m_value < 2 ^ 256)
    (hra : t.m_receiveAddress < 2 ^ 160)
    (hpay : C.gasReq t.m_data ≤ t.m_gas) :
    streamRLP (signTx C k t) true [] =
      [RLPItem.list (rlpFields (signTx C k t) true)] ∧
    ∃ t2, decodeTx C (RLPItem.list (rlpFields (signTx C k t) true)) mode =
        Except.ok t2 ∧
      (senderI C t2).result = Except.ok (C.sha3pub (C.toPublic k) % 2 ^ 160) := by
  have hsg := hval k (hashUnsigned C t)
  have hS : signTx C k t = { t with m_vrs := C.sign k (hashUnsigned C t) } := by
    unfold signTx
    rw [if_pos hsg]
  have hxs : rlpFields (signTx C k t) true =
      [RLPItem.bytes (natToBE t.m_nonce), RLPItem.bytes (natToBE t.m_gasPrice),
       RLPItem.bytes (natToBE t.m_gas),
       (if t.m_type = TransactionType.MessageCall then
          RLPItem.bytes (fixedBE 20 t.m_receiveAddress)
        else RLPItem.bytes []),
       RLPItem.bytes (natToBE t.m_value), RLPItem.bytes t.m_data,
       RLPItem.bytes (natToBE ((C.sign k (hashUnsigned C t)).v + 27)),
       RLPItem.bytes (natToBE (C.sign k (hashUnsigned C t)).r),
       RLPItem.bytes (natToBE (C.sign k (hashUnsigned C t)).s)] := by
    rw [hS]
    simp [rlpFields]
  have hty2 : t.m_type = TransactionType.ContractCreation ∨
      t.m_type = TransactionType.MessageCall := by
    cases htt : t.m_type
    · exact absurd htt hty
    · exact Or.inl rfl
    · exact Or.inr rfl
  constructor
  · rw [hS]
    simp [streamRLP, hty]
  · have hsgv : (C.sign k (hashUnsigned C t)).v ≤ 1 := hsg.1
    have hsgr : (C.sign k (hashUnsigned C t)).r < 2 ^ 256 :=
      lt_trans hsg.2.2.1 secp_lt_pow256
    have hsgs : (C.sign k (hashUnsigned C t)).s < 2 ^ 256 :=
      lt_trans hsg.2.2.2.2 secp_lt_pow256
    have hg0 : (rlpFields (signTx C k t) true).get? 0 =
        some (RLPItem.bytes (natToBE t.m_nonce)) := by rw [hxs]; rfl
    have hg1 : (rlpFields (signTx C k t) true).get? 1 =
        some (RLPItem.bytes (natToBE t.m_gasPrice)) := by rw [hxs]; rfl
    have hg2 : (rlpFields (signTx C k t) true).get? 2 =
        some (RLPItem.bytes (natToBE t.m_gas)) := by rw [hxs]; rfl
    have hg3 : (rlpFields (signTx C k t) true).get? 3 =
        some (if t.m_type = TransactionType.MessageCall then
            RLPItem.bytes (fixedBE 20 t.m_receiveAddress)
          else RLPItem.bytes []) := by rw [hxs]; rfl
    have hg4 : (rlpFields (signTx C k t) true).get? 4 =
        some (RLPItem.bytes (natToBE t.m_value)) := by rw [hxs]; rfl
    have hg5 : (rlpFields (signTx C k t) true).get? 5 =
        some (RLPItem.bytes t.m_data) := by rw [hxs]; rfl
    have hg6 : (rlpFields (signTx C k t) true).get? 6 =
        some (RLPItem.bytes (natToBE ((C.sign k (hashUnsigned C t)).v + 27))) := by
      rw [hxs]; rfl
    have hg7 : (rlpFields (signTx C k t) true).get? 7 =
        some (RLPItem.bytes (natToBE (C.sign k (hashUnsigned C t)).r)) := by rw [hxs]; rfl
    have hg8 : (rlpFields (signTx C k t) true).get? 8 =
        some (RLPItem.bytes (natToBE (C.sign k (hashUnsigned C t)).s)) := by rw [hxs]; rfl
    have hlen : (rlpFields (signTx C k t) true).length = 9 := by rw [hxs]; rfl
    have h0 : toInt256 ((rlpFields (signTx C k t) true).get? 0) = Except.ok t.m_nonce := by
      rw [hg0]; exact toInt256_natToBE _ hnonce
    have h1 : toInt256 ((rlpFields (signTx C k t) true).get? 1) =
        Except.ok t.m_gasPrice := by
      rw [hg1]; exact toInt256_natToBE _ hgp
    have h2 : toInt256 ((rlpFields (signTx C k t) true).get? 2) = Except.ok t.m_gas := by
      rw [hg2]; exact toInt256_natToBE _ hgas
    have h4 : toInt256 ((rlpFields (signTx C k t) true).get? 4) = Except.ok t.m_value := by
      rw [hg4]; exact toInt256_natToBE _ hvalue
    have h5 : isDataItem ((rlpFields (signTx C k t) true).get? 5) = true := by
      rw [hg5]; rfl
    have h6 : toBytesItem ((rlpFields (signTx C k t) true).get? 5) =
        Except.ok t.m_data := by
      rw [hg5]; rfl
    have h7 : toIntByte ((rlpFields (signTx C k t) true).get? 6) =
        Except.ok ((C.sign k (hashUnsigned C t)).v + 27) := by
      rw [hg6]; exact toIntByte_natToBE _ (by omega)
    have h8 : toInt256 ((rlpFields (signTx C k t) true).get? 7) =
        Except.ok (C.sign k (hashUnsigned C t)).r := by
      rw [hg7]; exact toInt256_natToBE _ hsgr
    have h9 : toInt256 ((rlpFields (signTx C k t) true).get? 8) =
        Except.ok (C.sign k (hashUnsigned C t)).s := by
      rw [hg8]; exact toInt256_natToBE _ hsgs
    have hra20 : t.m_receiveAddress < 256 ^ 20 := by rw [← pow256_20]; exact hra
    obtain ⟨raV, h3, hempty_eq, hraMC⟩ :
        ∃ raV, field3Addr (rlpFields (signTx C k t) true) = Except.ok raV ∧
          ((if isEmptyItem ((rlpFields (signTx C k t) true).get? 3) then
              TransactionType.ContractCreation
            else TransactionType.MessageCall) = t.m_type) ∧
          (t.m_type = TransactionType.MessageCall → raV = t.m_receiveAddress) := by
      rcases hty2 with hcc | hmc
      · refine ⟨0, ?_, ?_, ?_⟩
        · unfold field3Addr
          rw [hg3, hcc]
          rfl
        · rw [hg3, hcc]
          rfl
        · intro hmc0
          rw [hcc] at hmc0
          exact absurd hmc0 (by simp)
      · have hitem : (if t.m_type = TransactionType.MessageCall then
            RLPItem.bytes (fixedBE 20 t.m_receiveAddress)
          else RLPItem.bytes []) = RLPItem.bytes (fixedBE 20 t.m_receiveAddress) :=
          if_pos hmc
        have hne : isEmptyItem (some (RLPItem.bytes (fixedBE 20 t.m_receiveAddress))) =
            false := isEmptyItem_fixedBE _ hra20
        refine ⟨t.m_receiveAddress, ?_, ?_, fun _ => rfl⟩
        · unfold field3Addr
          rw [hg3, hitem, hne]
          rw [if_neg (by simp)]
          exact toHashAddr_fixedBE _ hra20
        · rw [hg3, hitem, hne, hmc]
          rw [if_neg (by simp)]
    have hcore := decodeCore_list_ok_eval (rlpFields (signTx C k t) true)
      t.m_nonce t.m_gasPrice t.m_gas raV t.m_value t.m_data
      ((C.sign k (hashUnsigned C t)).v + 27)
      (C.sign k (hashUnsigned C t)).r (C.sign k (hashUnsigned C t)).s
      h0 h1 h2 h3 h4 h5 h6 h7 h8 h9 (by omega)
    have hv : ((C.sign k (hashUnsigned C t)).v + 27 + 229) % 256 =
        (C.sign k (hashUnsigned C t)).v := by omega
    rw [hv, hempty_eq] at hcore
    have hcore2 : decodeCore (RLPItem.list (rlpFields (signTx C k t) true)) =
        Except.ok (decodedOf t raV (C.sign k (hashUnsigned C t))) := hcore
    have hhash : hashUnsigned C (decodedOf t raV (C.sign k (hashUnsigned C t))) =
        hashUnsigned C t := by
      rcases hty2 with hcc | hmc
      · simp [decodedOf, hashUnsigned, streamRLP, rlpFields, hcc]
      · have hraV := hraMC hmc
        simp [decodedOf, hashUnsigned, streamRLP, rlpFields, hmc, hraV]
    have hr : C.recover (decodedOf t raV (C.sign k (hashUnsigned C t))).m_vrs
        (hashUnsigned C (decodedOf t raV (C.sign k (hashUnsigned C t)))) =
        some (C.toPublic k) := by
      rw [hhash]
      exact hrec k (hashUnsigned C t)
    have hsend : (senderI C (decodedOf t raV (C.sign k (hashUnsigned C t)))).result =
        Except.ok (C.sha3pub (C.toPublic k) % 2 ^ 160) :=
      senderI_recover_ok C _ _ rfl hr
    have hsig1 : sigValid (decodedOf t raV (C.sign k (hashUnsigned C t))).m_vrs := hsg
    have hpay1 : checkPayment C (decodedOf t raV (C.sign k (hashUnsigned C t))) := hpay
    have hdec := decodeTx_eval_ok C (RLPItem.list (rlpFields (signTx C k t) true)) mode
      (decodedOf t raV (C.sign k (hashUnsigned C t))) hcore2 hsig1 hpay1
      (fun _ => ⟨_, hsend⟩)
    refine ⟨_, hdec, ?_⟩
    by_cases hev : mode = CheckTransaction.Everything
    · rw [if_pos hev]
      exact senderI_stable C _ _ hsend
    · rw [if_neg hev]
      exact hsend

/-- Witness for c3_sign_roundtrip at concrete crypto parameters, secret
key, transaction and mode. -/
theorem c3_sign_roundtrip_witness :
    ∃ t2, decodeTx demoCrypto
        (RLPItem.list (rlpFields (signTx demoCrypto 3 txC3) true))
        CheckTransaction.Cheap = Except.ok t2 ∧
      (senderI demoCrypto t2).result =
        Except.ok (demoCrypto.sha3pub (demoCrypto.toPublic 3) % 2 ^ 160) :=
  (c3_sign_roundtrip demoCrypto txC3 3 CheckTransaction.Cheap demo_recover_sign
    demo_sign_valid (by decide) (by decide) (by decide) (by decide) (by decide)
    (by decide) (by decide)).2
